import Mathlib

/-!
Verification of the accept-nano HTTP handler layer (`src/http.go`).

The handlers `handlePay`, `handleVerify` and `handleWebsocket` are embedded
shallowly as functions producing a trace of observable actions (collaborator
calls and HTTP responses).  Collaborators that live outside `src/http.go`
(the price oracle `getNanoPrice`, the index allocator `NewIndex`, the key
derivation `node.DeterministicKey`, the token codec `NewToken`/`ParseToken`,
the store operations `Payment.Save`/`LoadPayment`, the JSON marshaller and
`NanoToRaw`) are modelled as oracles in an environment record: the handler's
control flow — which is the code under verification — dispatches on their
results exactly as the Go source does.
-/

namespace AcceptNano

/-- A derived keypair, as returned by `node.DeterministicKey`: the handler
uses only the `Public` and `Account` fields. -/
structure Key where
  public : String
  account : String
  deriving DecidableEq, Repr

/-- The `Payment` record as built by `handlePay` (`src/http.go` lines 119-128).
`amount` is the ledger-native raw amount (`NanoToRaw(amount)`), `amountInCurrency`
the decimal form value as parsed, `state` the opaque merchant string. -/
structure Payment where
  publicKey : String
  account : String
  index : Nat
  amount : Int
  amountInCurrency : Rat
  currency : String
  state : String
  createdAt : Nat
  deriving DecidableEq, Repr

/-- Token claims recovered by `ParseToken`: the handler uses `claims.Account`. -/
structure Claims where
  account : String
  deriving DecidableEq, Repr

/-- Modelled from the spec: `NewResponse` (not under `src/`) builds the
client-facing JSON response from a Payment and its token; per the spec the
`State` field is the "merchant-supplied opaque correlation string, echoed
back unmodified", and the payment's amount/currency data and the bearer
token are returned to the client. -/
structure Response where
  token : String
  account : String
  amount : Int
  amountInCurrency : Rat
  currency : String
  state : String
  deriving DecidableEq, Repr

/-- Modelled from the spec: building the response echoes the Payment's fields,
in particular `State` unmodified, together with the token. -/
def NewResponse (p : Payment) (token : String) : Response :=
  { token := token
    account := p.account
    amount := p.amount
    amountInCurrency := p.amountInCurrency
    currency := p.currency
    state := p.state }

/-- Rounding half away from zero to an integer, the rounding mode of the
decimal library used by the handler. -/
def roundAwayFromZero (q : Rat) : Int :=
  if 0 ≤ q then ⌊q + 1/2⌋ else -⌊-q + 1/2⌋

/-- `a.DivRound(b, 6)` of the decimal library: divide and round the quotient
to 6 decimal places, half away from zero (`src/http.go` line 96). -/
def DivRound6 (a b : Rat) : Rat :=
  (roundAwayFromZero (a / b * 1000000) : Rat) / 1000000

/-- The Go standard-library `strings.ToUpper` on the currency code: map every
character to its upper-case form (`src/http.go` line 99). -/
def strToUpper (s : String) : String :=
  String.mk (s.data.map Char.toUpper)

/-- Result of `LoadPayment`: found, `errPaymentNotFound`, or another error. -/
inductive LoadResult where
  | found (p : Payment)
  | notFound
  | err
  deriving DecidableEq, Repr

/-- Observable actions of a handler run: calls into collaborators, HTTP error
responses (by status code), body writes, websocket bus operations and reads. -/
inductive Action where
  | callGetPrice (currency : String)
  | callNewIndex
  | callDeterministicKey (index : Nat)
  | callNewToken (index : Nat)
  | callSave (p : Payment)
  | callStartChecking (p : Payment)
  | callLoadPayment (account : String)
  | subscribe (account : String)
  | cancelSub (account : String)
  | readOk
  | readErr
  | httpError (status : Nat)
  | writeBody (r : Response)
  deriving DecidableEq, Repr

/-- True exactly on event-bus subscription actions. -/
def Action.isSubscribe : Action → Bool
  | .subscribe _ => true
  | _ => false

/-- The collaborator oracles a handler run consults.  Each field fixes the
result the corresponding external call returns during the run; the handler's
own branching on those results is taken from `src/http.go`. -/
structure Env where
  parseDecimal : String → Except Unit Rat
  getNanoPrice : String → Except Unit Rat
  newIndex : Except Unit Nat
  deterministicKey : Nat → Except Unit Key
  newToken : Nat → String → Except Unit String
  save : Payment → Except Unit Unit
  nanoToRaw : Rat → Int
  marshal : Response → Except Unit String
  now : Nat
  parseToken : String → Except Unit Claims
  loadPayment : String → LoadResult

/-- The HTTP request data `handlePay` reads: the method and the `amount`,
`currency` and `state` form values. -/
structure PayRequest where
  method : String
  amount : String
  currency : String
  state : String
  deriving DecidableEq, Repr

/-- The `Payment` literal built by `handlePay` (`src/http.go` lines 119-128)
from the derived key, the allocated index and the computed amounts. -/
def mkPayment (env : Env) (req : PayRequest) (amountInCurrency amount : Rat)
    (currency : String) (index : Nat) (key : Key) : Payment :=
  { publicKey := key.public
    account := key.account
    index := index
    amount := env.nanoToRaw amount
    amountInCurrency := amountInCurrency
    currency := currency
    state := req.state
    createdAt := env.now }

/-- The tail of `handlePay` after the amount/currency computation
(`src/http.go` lines 100-147): allocate an index, derive the key, issue the
token, build and save the Payment, start checking, marshal and write the
response; every failing step answers 500 and stops. -/
def payRest (env : Env) (req : PayRequest) (amountInCurrency amount : Rat)
    (currency : String) : List Action :=
  Action.callNewIndex ::
  match env.newIndex with
  | .error _ => [Action.httpError 500]
  | .ok index =>
    Action.callDeterministicKey index ::
    match env.deterministicKey index with
    | .error _ => [Action.httpError 500]
    | .ok key =>
      Action.callNewToken index ::
      match env.newToken index key.account with
      | .error _ => [Action.httpError 500]
      | .ok token =>
        let payment : Payment := mkPayment env req amountInCurrency amount currency index key
        Action.callSave payment ::
        match env.save payment with
        | .error _ => [Action.httpError 500]
        | .ok _ =>
          Action.callStartChecking payment ::
          match env.marshal (NewResponse payment token) with
          | .error _ => [Action.httpError 500]
          | .ok _ => [Action.writeBody (NewResponse payment token)]

/-- `handlePay` (`src/http.go` lines 75-148): reject non-POST with 405; parse
the amount form value, rejecting with 400 on failure; with a non-empty
currency look up the price (500 on failure) and convert with
`DivRound(price, 6)`, otherwise take the amount as-is and use the sentinel
currency `"BCB"`; uppercase the currency and continue with `payRest`. -/
def handlePay (env : Env) (req : PayRequest) : List Action :=
  if req.method ≠ "POST" then [Action.httpError 405]
  else
    match env.parseDecimal req.amount with
    | .error _ => [Action.httpError 400]
    | .ok amountInCurrency =>
      if req.currency = "" then
        payRest env req amountInCurrency amountInCurrency (strToUpper "BCB")
      else
        Action.callGetPrice req.currency ::
        match env.getNanoPrice req.currency with
        | .error _ => [Action.httpError 500]
        | .ok price =>
          payRest env req amountInCurrency (DivRound6 amountInCurrency price)
            (strToUpper req.currency)

/-- `handleVerify` (`src/http.go` lines 150-183): empty token → 400; token
that fails to parse → 400; parsed token whose account has no stored payment
→ 404; store error → 500; otherwise marshal and write the response. -/
def handleVerify (env : Env) (token : String) : List Action :=
  if token = "" then [Action.httpError 400]
  else
    match env.parseToken token with
    | .error _ => [Action.httpError 400]
    | .ok claims =>
      Action.callLoadPayment claims.account ::
      match env.loadPayment claims.account with
      | .notFound => [Action.httpError 404]
      | .err => [Action.httpError 500]
      | .found payment =>
        match env.marshal (NewResponse payment token) with
        | .error _ => [Action.httpError 500]
        | .ok _ => [Action.writeBody (NewResponse payment token)]

/-- `handleWebsocket` (`src/http.go` lines 185-212): empty or unparsable token
→ return with no action; otherwise subscribe the token's account on the
verifications bus and loop reading from the connection until a read error,
then run the deferred cancel.  `reads` is the number of successful reads
before the client disconnects. -/
def handleWebsocket (env : Env) (token : String) (reads : Nat) : List Action :=
  if token = "" then []
  else
    match env.parseToken token with
    | .error _ => []
    | .ok claims =>
      Action.subscribe claims.account ::
      (List.replicate reads Action.readOk ++
        [Action.readErr, Action.cancelSub claims.account])

/-- An event delivered on the verifications bus.  The Go `Event` is an open
interface; `paymentVerified` is the one implementation in `src/http.go` and
`other` stands for any foreign implementation. -/
inductive Event where
  | paymentVerified (p : Payment)
  | other (account : String)
  deriving DecidableEq, Repr

/-- The subscriber callback registered by `handleWebsocket`
(`src/http.go` lines 195-203): it downcasts the event with `e.(PaymentVerified)`
— `none` models the panic when the event is of any other type — then builds
the response, returning silently on marshal failure, else writing it. -/
def wsCallback (env : Env) (token : String) (e : Event) : Option (List Action) :=
  match e with
  | .paymentVerified p =>
    match env.marshal (NewResponse p token) with
    | .error _ => some []
    | .ok _ => some [Action.writeBody (NewResponse p token)]
  | .other _ => none

/-! ### Concrete instances for spot checks -/

/-- A fully successful collaborator environment: every oracle answers, except
that the amount string "bad" fails to parse and the currency "XYZ" is unknown
to the price oracle. -/
def envOk : Env :=
  { parseDecimal := fun s => if s = "bad" then Except.error () else Except.ok 3
    getNanoPrice := fun c => if c = "XYZ" then Except.error () else Except.ok 2
    newIndex := Except.ok 7
    deterministicKey := fun _ => Except.ok ⟨"PK", "ACC"⟩
    newToken := fun _ _ => Except.ok "TOK"
    save := fun _ => Except.ok ()
    nanoToRaw := fun q => q.num
    marshal := fun _ => Except.ok "json"
    now := 0
    parseToken := fun t => if t = "tok" then Except.ok ⟨"ACC"⟩ else Except.error ()
    loadPayment := fun _ => LoadResult.notFound }

/-- `envOk` with a failing store save. -/
def envSaveFail : Env := { envOk with save := fun _ => Except.error () }

/-- A well-formed POST pay request without a currency. -/
def reqOk : PayRequest := { method := "POST", amount := "3", currency := "", state := "s" }

/-- A well-formed POST pay request with currency "usd". -/
def reqCur : PayRequest := { method := "POST", amount := "3", currency := "usd", state := "s" }

/-- A POST pay request whose amount form value does not parse. -/
def reqBadAmount : PayRequest :=
  { method := "POST", amount := "bad", currency := "", state := "s" }

/-- A POST pay request with the currency the price oracle cannot serve. -/
def reqXYZ : PayRequest := { method := "POST", amount := "3", currency := "XYZ", state := "s" }

/-- A GET request to the pay endpoint. -/
def reqGet : PayRequest := { method := "GET", amount := "3", currency := "", state := "s" }

/-- The payment `handlePay envOk reqOk` builds and saves. -/
def payOk : Payment :=
  { publicKey := "PK", account := "ACC", index := 7, amount := 3,
    amountInCurrency := 3, currency := "BCB", state := "s", createdAt := 0 }

/-- The payment `handlePay envOk reqCur` builds and saves: the ledger amount
is derived from `3.DivRound(2, 6) = 3/2` nano and the currency is upper-cased
to "USD". -/
def payCur : Payment :=
  mkPayment envOk reqCur 3 (DivRound6 3 2) (strToUpper "usd") 7 ⟨"PK", "ACC"⟩

/-! ### Characterization lemmas -/

/-- Any `Except Unit` value is the unit error or some success. -/
theorem exceptCases {α : Type} (x : Except Unit α) :
    x = Except.error () ∨ ∃ a, x = Except.ok a := by
  cases x with
  | error e => cases e; exact Or.inl rfl
  | ok a => exact Or.inr ⟨a, rfl⟩

/-- Exhaustive case analysis of `payRest`: the trace is one of six concrete
lists, according to which collaborator call fails first. -/
theorem payRest_eq (env : Env) (req : PayRequest) (aic amt : Rat) (cur : String) :
    (env.newIndex = .error () ∧
      payRest env req aic amt cur = [Action.callNewIndex, Action.httpError 500]) ∨
    (∃ i, env.newIndex = .ok i ∧ env.deterministicKey i = .error () ∧
      payRest env req aic amt cur =
        [Action.callNewIndex, Action.callDeterministicKey i, Action.httpError 500]) ∨
    (∃ i k, env.newIndex = .ok i ∧ env.deterministicKey i = .ok k ∧
      env.newToken i k.account = .error () ∧
      payRest env req aic amt cur =
        [Action.callNewIndex, Action.callDeterministicKey i, Action.callNewToken i,
          Action.httpError 500]) ∨
    (∃ i k t, env.newIndex = .ok i ∧ env.deterministicKey i = .ok k ∧
      env.newToken i k.account = .ok t ∧
      env.save (mkPayment env req aic amt cur i k) = .error () ∧
      payRest env req aic amt cur =
        [Action.callNewIndex, Action.callDeterministicKey i, Action.callNewToken i,
          Action.callSave (mkPayment env req aic amt cur i k), Action.httpError 500]) ∨
    (∃ i k t, env.newIndex = .ok i ∧ env.deterministicKey i = .ok k ∧
      env.newToken i k.account = .ok t ∧
      env.save (mkPayment env req aic amt cur i k) = .ok () ∧
      env.marshal (NewResponse (mkPayment env req aic amt cur i k) t) = .error () ∧
      payRest env req aic amt cur =
        [Action.callNewIndex, Action.callDeterministicKey i, Action.callNewToken i,
          Action.callSave (mkPayment env req aic amt cur i k),
          Action.callStartChecking (mkPayment env req aic amt cur i k),
          Action.httpError 500]) ∨
    (∃ i k t s, env.newIndex = .ok i ∧ env.deterministicKey i = .ok k ∧
      env.newToken i k.account = .ok t ∧
      env.save (mkPayment env req aic amt cur i k) = .ok () ∧
      env.marshal (NewResponse (mkPayment env req aic amt cur i k) t) = .ok s ∧
      payRest env req aic amt cur =
        [Action.callNewIndex, Action.callDeterministicKey i, Action.callNewToken i,
          Action.callSave (mkPayment env req aic amt cur i k),
          Action.callStartChecking (mkPayment env req aic amt cur i k),
          Action.writeBody (NewResponse (mkPayment env req aic amt cur i k) t)]) := by
  rcases exceptCases env.newIndex with hIdx | ⟨i, hIdx⟩
  · exact Or.inl ⟨hIdx, by simp [payRest, hIdx]⟩
  rcases exceptCases (env.deterministicKey i) with hKey | ⟨k, hKey⟩
  · exact Or.inr (Or.inl ⟨i, hIdx, hKey, by simp [payRest, hIdx, hKey]⟩)
  rcases exceptCases (env.newToken i k.account) with hTok | ⟨t, hTok⟩
  · exact Or.inr (Or.inr (Or.inl
      ⟨i, k, hIdx, hKey, hTok, by simp [payRest, hIdx, hKey, hTok]⟩))
  rcases exceptCases (env.save (mkPayment env req aic amt cur i k)) with hSave | ⟨u, hSave⟩
  · exact Or.inr (Or.inr (Or.inr (Or.inl
      ⟨i, k, t, hIdx, hKey, hTok, hSave, by simp [payRest, hIdx, hKey, hTok, hSave]⟩)))
  cases u
  rcases exceptCases (env.marshal (NewResponse (mkPayment env req aic amt cur i k) t)) with
    hMar | ⟨s, hMar⟩
  · exact Or.inr (Or.inr (Or.inr (Or.inr (Or.inl
      ⟨i, k, t, hIdx, hKey, hTok, hSave, hMar,
        by simp [payRest, hIdx, hKey, hTok, hSave, hMar]⟩))))
  · exact Or.inr (Or.inr (Or.inr (Or.inr (Or.inr
      ⟨i, k, t, s, hIdx, hKey, hTok, hSave, hMar,
        by simp [payRest, hIdx, hKey, hTok, hSave, hMar]⟩))))

/-- Exhaustive case analysis of `handlePay`: non-POST rejection, amount parse
failure, price-lookup failure, or entry into `payRest` with the computed
amount and currency of the taken branch. -/
theorem handlePay_cases (env : Env) (req : PayRequest) :
    (req.method ≠ "POST" ∧ handlePay env req = [Action.httpError 405]) ∨
    (req.method = "POST" ∧ env.parseDecimal req.amount = Except.error () ∧
      handlePay env req = [Action.httpError 400]) ∨
    (∃ aic, req.method = "POST" ∧ env.parseDecimal req.amount = Except.ok aic ∧
      req.currency ≠ "" ∧ env.getNanoPrice req.currency = Except.error () ∧
      handlePay env req = [Action.callGetPrice req.currency, Action.httpError 500]) ∨
    (∃ aic, req.method = "POST" ∧ env.parseDecimal req.amount = Except.ok aic ∧
      req.currency = "" ∧
      handlePay env req = payRest env req aic aic (strToUpper "BCB")) ∨
    (∃ aic price, req.method = "POST" ∧ env.parseDecimal req.amount = Except.ok aic ∧
      req.currency ≠ "" ∧ env.getNanoPrice req.currency = Except.ok price ∧
      handlePay env req = Action.callGetPrice req.currency ::
        payRest env req aic (DivRound6 aic price) (strToUpper req.currency)) := by
  by_cases hm : req.method = "POST"
  · rcases exceptCases (env.parseDecimal req.amount) with hP | ⟨aic, hP⟩
    · exact Or.inr (Or.inl ⟨hm, hP, by simp [handlePay, hm, hP]⟩)
    · by_cases hc : req.currency = ""
      · exact Or.inr (Or.inr (Or.inr (Or.inl
          ⟨aic, hm, hP, hc, by simp [handlePay, hm, hP, hc]⟩)))
      · rcases exceptCases (env.getNanoPrice req.currency) with hPr | ⟨price, hPr⟩
        · exact Or.inr (Or.inr (Or.inl
            ⟨aic, hm, hP, hc, hPr, by simp [handlePay, hm, hP, hc, hPr]⟩))
        · exact Or.inr (Or.inr (Or.inr (Or.inr
            ⟨aic, price, hm, hP, hc, hPr, by simp [handlePay, hm, hP, hc, hPr]⟩)))
  · exact Or.inl ⟨hm, by simp [handlePay, hm]⟩

/-- A `callSave` action in a `payRest` trace carries exactly the Payment built
from the allocated index and derived key. -/
theorem payRest_callSave_mem {env : Env} {req : PayRequest} {aic amt : Rat}
    {cur : String} {p : Payment}
    (h : Action.callSave p ∈ payRest env req aic amt cur) :
    ∃ i k, env.newIndex = Except.ok i ∧ env.deterministicKey i = Except.ok k ∧
      p = mkPayment env req aic amt cur i k := by
  rcases payRest_eq env req aic amt cur with
    ⟨_, heq⟩ | ⟨i, _, _, heq⟩ | ⟨i, k, _, _, _, heq⟩ |
    ⟨i, k, t, hIdx, hKey, hTok, hSave, heq⟩ |
    ⟨i, k, t, hIdx, hKey, hTok, hSave, hMar, heq⟩ |
    ⟨i, k, t, s, hIdx, hKey, hTok, hSave, hMar, heq⟩ <;>
    rw [heq] at h <;> simp at h
  · exact ⟨i, k, hIdx, hKey, h⟩
  · exact ⟨i, k, hIdx, hKey, h⟩
  · exact ⟨i, k, hIdx, hKey, h⟩

/-- A `callStartChecking` action in a `payRest` trace implies the save for that
very Payment succeeded, and the save strictly precedes the start in the trace. -/
theorem payRest_callStart_mem {env : Env} {req : PayRequest} {aic amt : Rat}
    {cur : String} {p : Payment}
    (h : Action.callStartChecking p ∈ payRest env req aic amt cur) :
    env.save p = Except.ok () ∧
      [Action.callSave p, Action.callStartChecking p].Sublist
        (payRest env req aic amt cur) := by
  rcases payRest_eq env req aic amt cur with
    ⟨_, heq⟩ | ⟨i, _, _, heq⟩ | ⟨i, k, _, _, _, heq⟩ |
    ⟨i, k, t, hIdx, hKey, hTok, hSave, heq⟩ |
    ⟨i, k, t, hIdx, hKey, hTok, hSave, hMar, heq⟩ |
    ⟨i, k, t, s, hIdx, hKey, hTok, hSave, hMar, heq⟩ <;>
    rw [heq] at h <;> simp at h
  · subst h
    refine ⟨hSave, ?_⟩
    rw [heq]
    exact List.Sublist.cons _ (List.Sublist.cons _ (List.Sublist.cons _
      (List.Sublist.cons₂ _ (List.Sublist.cons₂ _ (List.nil_sublist _)))))
  · subst h
    refine ⟨hSave, ?_⟩
    rw [heq]
    exact List.Sublist.cons _ (List.Sublist.cons _ (List.Sublist.cons _
      (List.Sublist.cons₂ _ (List.Sublist.cons₂ _ (List.nil_sublist _)))))

/-- When the save of the Payment appearing in a `payRest` trace fails, the
trace answers 500 and contains no `callStartChecking` action at all. -/
theorem payRest_save_error {env : Env} {req : PayRequest} {aic amt : Rat}
    {cur : String} {p : Payment}
    (hmem : Action.callSave p ∈ payRest env req aic amt cur)
    (hfail : env.save p = Except.error ()) :
    Action.httpError 500 ∈ payRest env req aic amt cur ∧
      ∀ q, Action.callStartChecking q ∉ payRest env req aic amt cur := by
  rcases payRest_eq env req aic amt cur with
    ⟨_, heq⟩ | ⟨i, _, _, heq⟩ | ⟨i, k, _, _, _, heq⟩ |
    ⟨i, k, t, hIdx, hKey, hTok, hSave, heq⟩ |
    ⟨i, k, t, hIdx, hKey, hTok, hSave, hMar, heq⟩ |
    ⟨i, k, t, s, hIdx, hKey, hTok, hSave, hMar, heq⟩ <;>
    rw [heq] at hmem <;> simp at hmem
  · rw [heq]
    exact ⟨by simp, by simp⟩
  · rw [hmem] at hfail
    rw [hSave] at hfail
    simp at hfail
  · rw [hmem] at hfail
    rw [hSave] at hfail
    simp at hfail

/-- A `writeBody` action in a `payRest` trace carries the response built from
the saved Payment and its token. -/
theorem payRest_writeBody_mem {env : Env} {req : PayRequest} {aic amt : Rat}
    {cur : String} {r : Response}
    (h : Action.writeBody r ∈ payRest env req aic amt cur) :
    ∃ i k t, r = NewResponse (mkPayment env req aic amt cur i k) t := by
  rcases payRest_eq env req aic amt cur with
    ⟨_, heq⟩ | ⟨i, _, _, heq⟩ | ⟨i, k, _, _, _, heq⟩ |
    ⟨i, k, t, hIdx, hKey, hTok, hSave, heq⟩ |
    ⟨i, k, t, hIdx, hKey, hTok, hSave, hMar, heq⟩ |
    ⟨i, k, t, s, hIdx, hKey, hTok, hSave, hMar, heq⟩ <;>
    rw [heq] at h <;> simp at h
  exact ⟨i, k, t, h⟩

/-! ### Claim theorems -/

/-- C1: whenever a check task is started for a payment, the payment's save
succeeded and the `Save` call strictly precedes `StartChecking` in the
handler's trace; and whenever the save of a payment fails, the request is
answered 500 and no check task is ever started for any payment. -/
theorem pay_save_before_startChecking (env : Env) (req : PayRequest) (p : Payment) :
    (Action.callStartChecking p ∈ handlePay env req →
      env.save p = Except.ok () ∧
      [Action.callSave p, Action.callStartChecking p].Sublist (handlePay env req)) ∧
    (Action.callSave p ∈ handlePay env req → env.save p = Except.error () →
      Action.httpError 500 ∈ handlePay env req ∧
      ∀ q, Action.callStartChecking q ∉ handlePay env req) := by
  rcases handlePay_cases env req with
    ⟨hm, heq⟩ | ⟨hm, hP, heq⟩ | ⟨aic, hm, hP, hc, hPr, heq⟩ | ⟨aic, hm, hP, hc, heq⟩ |
    ⟨aic, price, hm, hP, hc, hPr, heq⟩
  · rw [heq]
    exact ⟨by intro h; simp at h, by intro h; simp at h⟩
  · rw [heq]
    exact ⟨by intro h; simp at h, by intro h; simp at h⟩
  · rw [heq]
    exact ⟨by intro h; simp at h, by intro h; simp at h⟩
  · rw [heq]
    exact ⟨fun h => payRest_callStart_mem h, fun hmem hfail => payRest_save_error hmem hfail⟩
  · rw [heq]
    constructor
    · intro h
      have h' : Action.callStartChecking p ∈
          payRest env req aic (DivRound6 aic price) (strToUpper req.currency) := by
        simpa using h
      obtain ⟨hok, hsub⟩ := payRest_callStart_mem h'
      exact ⟨hok, hsub.cons _⟩
    · intro hmem hfail
      have h' : Action.callSave p ∈
          payRest env req aic (DivRound6 aic price) (strToUpper req.currency) := by
        simpa using hmem
      obtain ⟨h5, hns⟩ := payRest_save_error h' hfail
      refine ⟨List.mem_cons_of_mem _ h5, fun q hq => ?_⟩
      exact hns q (by simpa using hq)

/-- C1 witness: at `envOk`/`reqOk` the check task for `payOk` starts and the
save precedes it; at `envSaveFail` the save fails, 500 is answered and no
check task starts. -/
theorem pay_save_before_startChecking_spot :
    (Action.callStartChecking payOk ∈ handlePay envOk reqOk ∧
      envOk.save payOk = Except.ok () ∧
      [Action.callSave payOk, Action.callStartChecking payOk].Sublist
        (handlePay envOk reqOk)) ∧
    (Action.callSave payOk ∈ handlePay envSaveFail reqOk ∧
      envSaveFail.save payOk = Except.error () ∧
      Action.httpError 500 ∈ handlePay envSaveFail reqOk ∧
      ∀ q, Action.callStartChecking q ∉ handlePay envSaveFail reqOk) := by
  constructor
  · have hmem : Action.callStartChecking payOk ∈ handlePay envOk reqOk := by decide
    obtain ⟨h1, h2⟩ := (pay_save_before_startChecking envOk reqOk payOk).1 hmem
    exact ⟨hmem, h1, h2⟩
  · have hmem : Action.callSave payOk ∈ handlePay envSaveFail reqOk := by decide
    have hfail : envSaveFail.save payOk = Except.error () := rfl
    obtain ⟨h1, h2⟩ := (pay_save_before_startChecking envSaveFail reqOk payOk).2 hmem hfail
    exact ⟨hmem, hfail, h1, h2⟩

/-- C2: a POST pay request with a parsable amount and a non-empty currency
whose price lookup fails is answered 500 after the price call alone: no index
is allocated and no payment is saved. -/
theorem pay_price_failure_no_allocation (env : Env) (req : PayRequest)
    (hm : req.method = "POST")
    (hok : ∃ a, env.parseDecimal req.amount = Except.ok a)
    (hc : req.currency ≠ "")
    (hf : env.getNanoPrice req.currency = Except.error ()) :
    handlePay env req = [Action.callGetPrice req.currency, Action.httpError 500] ∧
    Action.httpError 500 ∈ handlePay env req ∧
    Action.callNewIndex ∉ handlePay env req ∧
    (∀ p, Action.callSave p ∉ handlePay env req) := by
  obtain ⟨a, ha⟩ := hok
  have heq : handlePay env req =
      [Action.callGetPrice req.currency, Action.httpError 500] := by
    simp [handlePay, hm, ha, hc, hf]
  rw [heq]
  exact ⟨rfl, by simp, by simp, by simp⟩

/-- C2 witness: the request with currency "XYZ", which the price oracle of
`envOk` cannot serve, is answered 500 with no allocation and no save. -/
theorem pay_price_failure_no_allocation_spot :
    reqXYZ.method = "POST" ∧
    (∃ a, envOk.parseDecimal reqXYZ.amount = Except.ok a) ∧
    reqXYZ.currency ≠ "" ∧
    envOk.getNanoPrice reqXYZ.currency = Except.error () ∧
    handlePay envOk reqXYZ = [Action.callGetPrice reqXYZ.currency, Action.httpError 500] ∧
    Action.httpError 500 ∈ handlePay envOk reqXYZ ∧
    Action.callNewIndex ∉ handlePay envOk reqXYZ ∧
    Action.callSave payOk ∉ handlePay envOk reqXYZ := by
  have h := pay_price_failure_no_allocation envOk reqXYZ rfl ⟨3, rfl⟩ (by decide) rfl
  exact ⟨rfl, ⟨3, rfl⟩, by decide, rfl, h.1, h.2.1, h.2.2.1, h.2.2.2 payOk⟩

/-- C5: a POST pay request whose amount form value fails to parse is rejected
with 400 and triggers no price lookup, no index allocation, no key derivation
and no save. -/
theorem pay_invalid_amount_rejected (env : Env) (req : PayRequest)
    (hm : req.method = "POST")
    (hbad : env.parseDecimal req.amount = Except.error ()) :
    handlePay env req = [Action.httpError 400] ∧
    (∀ c, Action.callGetPrice c ∉ handlePay env req) ∧
    Action.callNewIndex ∉ handlePay env req ∧
    (∀ i, Action.callDeterministicKey i ∉ handlePay env req) ∧
    (∀ p, Action.callSave p ∉ handlePay env req) := by
  have heq : handlePay env req = [Action.httpError 400] := by
    simp [handlePay, hm, hbad]
  rw [heq]
  exact ⟨rfl, by simp, by simp, by simp, by simp⟩

/-- C5 witness: the amount string "bad" is rejected with 400 and none of the
later collaborator calls appear in the trace. -/
theorem pay_invalid_amount_rejected_spot :
    reqBadAmount.method = "POST" ∧
    envOk.parseDecimal reqBadAmount.amount = Except.error () ∧
    handlePay envOk reqBadAmount = [Action.httpError 400] ∧
    Action.callGetPrice "usd" ∉ handlePay envOk reqBadAmount ∧
    Action.callNewIndex ∉ handlePay envOk reqBadAmount ∧
    Action.callDeterministicKey 7 ∉ handlePay envOk reqBadAmount ∧
    Action.callSave payOk ∉ handlePay envOk reqBadAmount := by
  have h := pay_invalid_amount_rejected envOk reqBadAmount rfl rfl
  exact ⟨rfl, rfl, h.1, h.2.1 "usd", h.2.2.1, h.2.2.2.1 7, h.2.2.2.2 payOk⟩

/-- C9: a request to the pay endpoint whose method is not POST is answered
405 with no other observable action in the trace. -/
theorem pay_non_post_rejected (env : Env) (req : PayRequest)
    (hm : req.method ≠ "POST") :
    handlePay env req = [Action.httpError 405] ∧
    (∀ c, Action.callGetPrice c ∉ handlePay env req) ∧
    Action.callNewIndex ∉ handlePay env req ∧
    (∀ p, Action.callSave p ∉ handlePay env req) := by
  have heq : handlePay env req = [Action.httpError 405] := by
    simp [handlePay, hm]
  rw [heq]
  exact ⟨rfl, by simp, by simp, by simp⟩

/-- C9 witness: a GET request is answered 405 and nothing else happens. -/
theorem pay_non_post_rejected_spot :
    reqGet.method ≠ "POST" ∧
    handlePay envOk reqGet = [Action.httpError 405] ∧
    Action.callGetPrice "usd" ∉ handlePay envOk reqGet ∧
    Action.callNewIndex ∉ handlePay envOk reqGet ∧
    Action.callSave payOk ∉ handlePay envOk reqGet := by
  have h := pay_non_post_rejected envOk reqGet (by decide)
  exact ⟨by decide, h.1, h.2.1 "usd", h.2.2.1, h.2.2.2 payOk⟩

/-- C4: every saved Payment keeps the parsed decimal amount in
`amountInCurrency`; with no currency supplied its currency is the sentinel
"BCB" and its amount is `NanoToRaw` of the amount unconverted; with a currency
supplied its currency is the upper-cased form value and its amount is
`NanoToRaw` of the amount divided by the oracle price with 6-place rounding. -/
theorem pay_stored_payment_fields (env : Env) (req : PayRequest) (p : Payment)
    (h : Action.callSave p ∈ handlePay env req) :
    env.parseDecimal req.amount = Except.ok p.amountInCurrency ∧
    (req.currency = "" →
      p.currency = "BCB" ∧ p.amount = env.nanoToRaw p.amountInCurrency) ∧
    (req.currency ≠ "" →
      p.currency = strToUpper req.currency ∧
      ∃ price, env.getNanoPrice req.currency = Except.ok price ∧
        p.amount = env.nanoToRaw (DivRound6 p.amountInCurrency price)) := by
  rcases handlePay_cases env req with
    ⟨hm, heq⟩ | ⟨hm, hP, heq⟩ | ⟨aic, hm, hP, hc, hPr, heq⟩ | ⟨aic, hm, hP, hc, heq⟩ |
    ⟨aic, price, hm, hP, hc, hPr, heq⟩
  · rw [heq] at h; simp at h
  · rw [heq] at h; simp at h
  · rw [heq] at h; simp at h
  · rw [heq] at h
    obtain ⟨i, k, hIdx, hKey, hp⟩ := payRest_callSave_mem h
    subst hp
    refine ⟨by simpa [mkPayment] using hP,
      fun _ => ⟨by simp [mkPayment]; decide, by simp [mkPayment]⟩,
      fun hcc => absurd hc hcc⟩
  · rw [heq] at h
    have h' : Action.callSave p ∈
        payRest env req aic (DivRound6 aic price) (strToUpper req.currency) := by
      simpa using h
    obtain ⟨i, k, hIdx, hKey, hp⟩ := payRest_callSave_mem h'
    subst hp
    exact ⟨by simpa [mkPayment] using hP,
      fun hcc => absurd hcc hc,
      fun _ => ⟨by simp [mkPayment], price, hPr, by simp [mkPayment]⟩⟩

/-- C4 witness: the saved payment of the "usd" request of `envOk` satisfies
all three field equations. -/
theorem pay_stored_payment_fields_spot :
    Action.callSave payCur ∈ handlePay envOk reqCur ∧
    envOk.parseDecimal reqCur.amount = Except.ok payCur.amountInCurrency ∧
    (reqCur.currency = "" →
      payCur.currency = "BCB" ∧
      payCur.amount = envOk.nanoToRaw payCur.amountInCurrency) ∧
    (reqCur.currency ≠ "" →
      payCur.currency = strToUpper reqCur.currency ∧
      ∃ price, envOk.getNanoPrice reqCur.currency = Except.ok price ∧
        payCur.amount = envOk.nanoToRaw (DivRound6 payCur.amountInCurrency price)) := by
  have heq : handlePay envOk reqCur =
      [Action.callGetPrice "usd", Action.callNewIndex, Action.callDeterministicKey 7,
        Action.callNewToken 7, Action.callSave payCur, Action.callStartChecking payCur,
        Action.writeBody (NewResponse payCur "TOK")] := rfl
  have hmem : Action.callSave payCur ∈ handlePay envOk reqCur := by
    rw [heq]; simp
  exact ⟨hmem, pay_stored_payment_fields envOk reqCur payCur hmem⟩

/-- C6: every saved Payment carries the `state` form value unmodified, and
every response body written by the handler carries the same value. -/
theorem pay_state_echoed (env : Env) (req : PayRequest) (p : Payment)
    (h : Action.callSave p ∈ handlePay env req) :
    p.state = req.state ∧
    (∀ r, Action.writeBody r ∈ handlePay env req → r.state = req.state) := by
  rcases handlePay_cases env req with
    ⟨hm, heq⟩ | ⟨hm, hP, heq⟩ | ⟨aic, hm, hP, hc, hPr, heq⟩ | ⟨aic, hm, hP, hc, heq⟩ |
    ⟨aic, price, hm, hP, hc, hPr, heq⟩
  · rw [heq] at h; simp at h
  · rw [heq] at h; simp at h
  · rw [heq] at h; simp at h
  · rw [heq] at h
    obtain ⟨i, k, hIdx, hKey, hp⟩ := payRest_callSave_mem h
    subst hp
    refine ⟨by simp [mkPayment], fun r hr => ?_⟩
    rw [heq] at hr
    obtain ⟨i', k', t', hr'⟩ := payRest_writeBody_mem hr
    subst hr'
    simp [NewResponse, mkPayment]
  · rw [heq] at h
    have h' : Action.callSave p ∈
        payRest env req aic (DivRound6 aic price) (strToUpper req.currency) := by
      simpa using h
    obtain ⟨i, k, hIdx, hKey, hp⟩ := payRest_callSave_mem h'
    subst hp
    refine ⟨by simp [mkPayment], fun r hr => ?_⟩
    rw [heq] at hr
    have hr' : Action.writeBody r ∈
        payRest env req aic (DivRound6 aic price) (strToUpper req.currency) := by
      simpa using hr
    obtain ⟨i', k', t', he⟩ := payRest_writeBody_mem hr'
    subst he
    simp [NewResponse, mkPayment]

/-- C6 witness: the payment saved for `reqOk` echoes the state "s", and so
does any response body written in that run. -/
theorem pay_state_echoed_spot :
    Action.callSave payOk ∈ handlePay envOk reqOk ∧
    payOk.state = reqOk.state ∧
    (Action.writeBody (NewResponse payOk "TOK") ∈ handlePay envOk reqOk →
      (NewResponse payOk "TOK").state = reqOk.state) := by
  have hmem : Action.callSave payOk ∈ handlePay envOk reqOk := by decide
  have h := pay_state_echoed envOk reqOk payOk hmem
  exact ⟨hmem, h.1, h.2 (NewResponse payOk "TOK")⟩

/-- C3: a verify request with an empty or unparsable token is answered 400
with no store lookup at all; a parsed token whose account has no stored
payment is answered 404 after the single lookup. -/
theorem verify_token_errors (env : Env) (token : String) :
    ((token = "" ∨ env.parseToken token = Except.error ()) →
      handleVerify env token = [Action.httpError 400] ∧
      ∀ a, Action.callLoadPayment a ∉ handleVerify env token) ∧
    (∀ claims, token ≠ "" → env.parseToken token = Except.ok claims →
      env.loadPayment claims.account = LoadResult.notFound →
      handleVerify env token =
        [Action.callLoadPayment claims.account, Action.httpError 404]) := by
  constructor
  · intro h
    have heq : handleVerify env token = [Action.httpError 400] := by
      by_cases h0 : token = ""
      · simp [handleVerify, h0]
      · rcases h with h | hp
        · exact absurd h h0
        · simp [handleVerify, h0, hp]
    rw [heq]
    exact ⟨rfl, by simp⟩
  · intro claims h0 hp hl
    simp [handleVerify, h0, hp, hl]

/-- C3 witness: the empty token and the unparsable token "zzz" are answered
400 with no lookup; the valid token "tok" whose account has no stored payment
is answered 404. -/
theorem verify_token_errors_spot :
    (handleVerify envOk "" = [Action.httpError 400] ∧
      Action.callLoadPayment "ACC" ∉ handleVerify envOk "") ∧
    handleVerify envOk "zzz" = [Action.httpError 400] ∧
    envOk.parseToken "tok" = Except.ok ⟨"ACC"⟩ ∧
    envOk.loadPayment "ACC" = LoadResult.notFound ∧
    handleVerify envOk "tok" = [Action.callLoadPayment "ACC", Action.httpError 404] := by
  have h1 := (verify_token_errors envOk "").1 (Or.inl rfl)
  have h2 := (verify_token_errors envOk "zzz").1 (Or.inr rfl)
  have h3 := (verify_token_errors envOk "tok").2 ⟨"ACC"⟩ (by decide) rfl rfl
  exact ⟨⟨h1.1, h1.2 "ACC"⟩, h2.1, rfl, rfl, h3⟩

/-- C7: a websocket connection with a parsed token registers exactly one
subscription on the event bus, for the token's account, and the deferred
cancel is the last action of the handler — it runs whenever the handler
returns, in particular after the read loop ends on client disconnect. -/
theorem ws_subscribe_once_cancel_on_return (env : Env) (token : String)
    (reads : Nat) (claims : Claims)
    (h0 : token ≠ "") (hp : env.parseToken token = Except.ok claims) :
    List.countP Action.isSubscribe (handleWebsocket env token reads) = 1 ∧
    Action.subscribe claims.account ∈ handleWebsocket env token reads ∧
    (handleWebsocket env token reads).getLast? =
      some (Action.cancelSub claims.account) := by
  have heq : handleWebsocket env token reads =
      Action.subscribe claims.account ::
        (List.replicate reads Action.readOk ++
          [Action.readErr, Action.cancelSub claims.account]) := by
    simp [handleWebsocket, h0, hp]
  rw [heq]
  refine ⟨?_, by simp, ?_⟩
  · simp [List.countP_cons, List.countP_append, List.countP_replicate, Action.isSubscribe]
  · have h2 : Action.subscribe claims.account ::
        (List.replicate reads Action.readOk ++
          [Action.readErr, Action.cancelSub claims.account]) =
        (Action.subscribe claims.account ::
          (List.replicate reads Action.readOk ++ [Action.readErr])) ++
          [Action.cancelSub claims.account] := by simp
    rw [h2, List.getLast?_concat]

/-- C7 witness: the "tok" connection with two successful reads before the
disconnect subscribes once for "ACC" and ends with the cancel. -/
theorem ws_subscribe_once_cancel_on_return_spot :
    ("tok" : String) ≠ "" ∧
    envOk.parseToken "tok" = Except.ok ⟨"ACC"⟩ ∧
    List.countP Action.isSubscribe (handleWebsocket envOk "tok" 2) = 1 ∧
    Action.subscribe "ACC" ∈ handleWebsocket envOk "tok" 2 ∧
    (handleWebsocket envOk "tok" 2).getLast? = some (Action.cancelSub "ACC") := by
  have h := ws_subscribe_once_cancel_on_return envOk "tok" 2 ⟨"ACC"⟩ (by decide) rfl
  exact ⟨by decide, rfl, h.1, h.2.1, h.2.2⟩

/-- C8: the subscriber callback runs without panicking exactly on events that
are `PaymentVerified` values; the downcast aborts it on every other event. -/
theorem ws_callback_requires_paymentVerified (env : Env) (token : String)
    (e : Event) :
    (wsCallback env token e).isSome ↔ ∃ p, e = Event.paymentVerified p := by
  cases e with
  | paymentVerified p =>
    rcases exceptCases (env.marshal (NewResponse p token)) with hm | ⟨s, hm⟩ <;>
      simp [wsCallback, hm]
  | other a => simp [wsCallback]

/-- C10: a websocket connection with an empty or unparsable token produces no
action at all: no subscription and no write. -/
theorem ws_bad_token_no_action (env : Env) (token : String) (reads : Nat)
    (h : token = "" ∨ env.parseToken token = Except.error ()) :
    handleWebsocket env token reads = [] ∧
    (∀ a, Action.subscribe a ∉ handleWebsocket env token reads) ∧
    (∀ r, Action.writeBody r ∉ handleWebsocket env token reads) := by
  have heq : handleWebsocket env token reads = [] := by
    by_cases h0 : token = ""
    · simp [handleWebsocket, h0]
    · rcases h with h | hp
      · exact absurd h h0
      · simp [handleWebsocket, h0, hp]
  rw [heq]
  exact ⟨rfl, by simp, by simp⟩

/-- C10 witness: the unparsable token "zzz" yields the empty trace. -/
theorem ws_bad_token_no_action_spot :
    envOk.parseToken "zzz" = Except.error () ∧
    handleWebsocket envOk "zzz" 0 = [] ∧
    Action.subscribe "ACC" ∉ handleWebsocket envOk "zzz" 0 ∧
    Action.writeBody (NewResponse payOk "TOK") ∉ handleWebsocket envOk "zzz" 0 := by
  have h := ws_bad_token_no_action envOk "zzz" 0 (Or.inr rfl)
  exact ⟨rfl, h.1, h.2.1 "ACC", h.2.2 (NewResponse payOk "TOK")⟩

end AcceptNano
